import Mathlib

/-!
Verification of the API-key governance subsystem of the
`skeduleslive` client: the key manager
(`vendored/skeduleslive_client/security/api_key_manager.py`) and the
request-gate middleware
(`vendored/skeduleslive_client/security/api_key_middleware.py`).

Conventions of the shallow embedding:
* timestamps (`time.time()`) are `Int` values passed explicitly as `now`;
* the SHA-256 hashing function is an arbitrary parameter
  `hf : String → String` (no property of the digest is needed for the
  claims below);
* Python dicts keyed by the hash are association lists
  `List (String × α)` with first-match lookup and in-place overwrite;
* methods that mutate `self` return the new manager state; a raised
  `KeyError` is the `Except.error` branch;
* `os.environ.get`, `uuid.uuid4()` and a request's header value are
  nondeterministic inputs and become explicit parameters.
-/

namespace SkedSec

/-- First-match lookup in an association list, as Python dict access. -/
def findVal {α : Type} (l : List (String × α)) (k : String) : Option α :=
  match l with
  | [] => none
  | (k', v) :: rest => if k' = k then some v else findVal rest k

/-- Dict write `d[k] = v`: overwrite the existing binding or append. -/
def upsert {α : Type} (l : List (String × α)) (k : String) (v : α) :
    List (String × α) :=
  match l with
  | [] => [(k, v)]
  | (k', v') :: rest =>
      if k' = k then (k, v) :: rest else (k', v') :: upsert rest k v

/-- Dict deletion `del d[k]`. -/
def eraseKey {α : Type} (l : List (String × α)) (k : String) :
    List (String × α) :=
  match l with
  | [] => []
  | (k', v') :: rest =>
      if k' = k then rest else (k', v') :: eraseKey rest k

/-- Python `dict.update(other)`: every binding of `other` is written into
`d`, new keys overriding old ones. -/
def dictUpdate {α : Type} (d other : List (String × α)) :
    List (String × α) :=
  other.foldl (fun acc kv => upsert acc kv.1 kv.2) d

/-- Python `s.startswith(p)`: `p` is a prefix of `s` (character-wise). -/
def pyStartswith (s p : String) : Bool :=
  p.data.isPrefixOf s.data

/-- Python truthiness of an optional string: `None` and `""` are falsy. -/
def strTruthy : Option String → Bool
  | none => false
  | some s => !(s = "")

/-- A metadata value (Python dicts in the source hold strings and ints). -/
inductive MetaVal where
  | s (v : String)
  | i (v : Int)
deriving DecidableEq

/-- Metadata mapping of a credential record. -/
abbrev Metadata : Type := List (String × MetaVal)

/-- One entry of `self._api_keys`: the credential record stored under the
hash of the raw key (api_key_manager.py lines 146-152). -/
structure KeyInfo where
  scopes : List String
  rate_limit : Int
  created_at : Int
  expires_at : Int
  metadata : Metadata
deriving DecidableEq

/-- One entry of `self._request_tracker` (api_key_manager.py lines
100-104). -/
structure Tracker where
  requests : Int
  window_start : Int
deriving DecidableEq

/-- The mutable state of `APIKeyManager`. -/
structure APIKeyManager where
  api_keys : List (String × KeyInfo)
  request_tracker : List (String × Tracker)
  rate_limit_window : Int
  default_rate_limit : Int
deriving DecidableEq

/-- `_load_default_api_key` (lines 40-57): seed the record of the
environment-configured default key unless its hash is already present.
`default_key` models `os.environ.get("MCP_API_KEY", "test-mcp-api-key-local-dev")`. -/
def load_default_api_key (m : APIKeyManager) (hf : String → String)
    (now : Int) (default_key : String) : APIKeyManager :=
  let default_key_hash := hf default_key
  match findVal m.api_keys default_key_hash with
  | some _ => m
  | none =>
      let info : KeyInfo :=
        { scopes := ["*"]
          rate_limit := m.default_rate_limit
          created_at := now
          expires_at := now + 365 * 24 * 3600
          metadata := [("name", .s "Default Development API Key"),
                       ("created_by", .s "system")] }
      { m with api_keys := upsert m.api_keys default_key_hash info }

/-- `APIKeyManager.__init__` (lines 21-38): empty stores, window 3600,
default rate limit 1000, then the default-key bootstrap. -/
def APIKeyManager.init (hf : String → String) (now : Int)
    (default_key : String) : APIKeyManager :=
  load_default_api_key
    { api_keys := []
      request_tracker := []
      rate_limit_window := 3600
      default_rate_limit := 1000 } hf now default_key

/-- `validate_key` (lines 63-90). The manager is returned unchanged: the
method only reads `self`. `api_key` is optional because the middleware
passes `request.headers.get(...)`, which may be `None`. -/
def validate_key (m : APIKeyManager) (hf : String → String) (now : Int)
    (api_key : Option String) (scope : Option String) :
    APIKeyManager × (Bool × Option String) :=
  if !(strTruthy api_key) then
    (m, (false, some "API key is required"))
  else
    let key_hash := hf (api_key.getD "")
    match findVal m.api_keys key_hash with
    | none => (m, (false, some "Invalid API key"))
    | some key_info =>
        if key_info.expires_at < now then
          (m, (false, some "API key has expired"))
        else
          if strTruthy scope
              ∧ ¬ (scope.getD "") ∈ key_info.scopes
              ∧ ¬ "*" ∈ key_info.scopes then
            (m, (false, some ("API key does not have permission for "
                              ++ scope.getD "")))
          else
            (m, (true, none))

/-- `check_rate_limit` (lines 92-123). The tracker is lazily created,
the window is hard-reset when `now - window_start > window`, then the
count is checked and, on admission, incremented. The unguarded record
lookup `self._api_keys[key_hash]` raises `KeyError` when the record is
absent; that is the `Except.error` branch, and the state returned with
it already holds the lazily created tracker. -/
def check_rate_limit (m : APIKeyManager) (hf : String → String)
    (now : Int) (api_key : String) :
    APIKeyManager × Except String (Bool × Option String) :=
  let key_hash := hf api_key
  let m1 :=
    match findVal m.request_tracker key_hash with
    | some _ => m
    | none =>
        let fresh : Tracker := { requests := 0, window_start := now }
        { m with
          request_tracker := upsert m.request_tracker key_hash fresh }
  let tracker := (findVal m1.request_tracker key_hash).getD
      { requests := 0, window_start := now }
  match findVal m1.api_keys key_hash with
  | none => (m1, .error "KeyError")
  | some key_info =>
      let tracker2 : Tracker :=
        if now - tracker.window_start > m1.rate_limit_window then
          { requests := 0, window_start := now }
        else tracker
      let m2 :=
        { m1 with
          request_tracker := upsert m1.request_tracker key_hash tracker2 }
      let rate_limit := key_info.rate_limit
      if tracker2.requests ≥ rate_limit then
        (m2, .ok (false, some "API rate limit exceeded"))
      else
        let bumped : Tracker :=
          { tracker2 with requests := tracker2.requests + 1 }
        ({ m2 with
           request_tracker := upsert m2.request_tracker key_hash bumped },
         .ok (true, none))

/-- `generate_key` (lines 125-155). The fresh random key
`f"sk-{uuid.uuid4().hex}"` is a parameter `api_key`; the function
returns the manager with the new record and the raw key. -/
def generate_key (m : APIKeyManager) (hf : String → String) (now : Int)
    (api_key : String) (scopes : Option (List String))
    (rate_limit : Option Int) (expires_in_days : Int)
    (metadata : Option Metadata) : APIKeyManager × String :=
  let key_hash := hf api_key
  let scopes' := scopes.getD ["*"]
  let rate_limit' := rate_limit.getD m.default_rate_limit
  let metadata' := metadata.getD []
  let info : KeyInfo :=
    { scopes := scopes'
      rate_limit := rate_limit'
      created_at := now
      expires_at := now + expires_in_days * 24 * 3600
      metadata := metadata' }
  ({ m with api_keys := upsert m.api_keys key_hash info }, api_key)

/-- `revoke_key` (lines 157-168): drop the record and, when present, the
tracker; report whether a record existed. -/
def revoke_key (m : APIKeyManager) (hf : String → String)
    (api_key : String) : APIKeyManager × Bool :=
  let key_hash := hf api_key
  match findVal m.api_keys key_hash with
  | some _ =>
      ({ m with api_keys := eraseKey m.api_keys key_hash
                request_tracker := eraseKey m.request_tracker key_hash },
       true)
  | none => (m, false)

/-- `update_key` (lines 170-195): mutate only the provided fields;
`metadata` is merged via `dict.update`, `expires_in_days` recomputes the
expiry from `now`. -/
def update_key (m : APIKeyManager) (hf : String → String) (now : Int)
    (api_key : String) (scopes : Option (List String))
    (rate_limit : Option Int) (expires_in_days : Option Int)
    (metadata : Option Metadata) : APIKeyManager × Bool :=
  let key_hash := hf api_key
  match findVal m.api_keys key_hash with
  | none => (m, false)
  | some key_info =>
      let k1 := match scopes with
        | some s => { key_info with scopes := s }
        | none => key_info
      let k2 := match rate_limit with
        | some r => { k1 with rate_limit := r }
        | none => k1
      let k3 := match expires_in_days with
        | some d => { k2 with expires_at := now + d * 24 * 3600 }
        | none => k2
      let k4 := match metadata with
        | some md => { k3 with metadata := dictUpdate k3.metadata md }
        | none => k3
      ({ m with api_keys := upsert m.api_keys key_hash k4 }, true)

/-- A JSON value, as much of it as the middleware's response bodies use. -/
inductive Json where
  | jnull
  | jbool (b : Bool)
  | jstr (s : String)
deriving DecidableEq

/-- Serialization of an optional Python string into JSON. -/
def optMsgJson : Option String → Json
  | none => .jnull
  | some s => .jstr s

/-- The part of a request `dispatch` looks at: `request.url.path` and the
value of the API-key header, `request.headers.get(header_name)`. -/
structure Request where
  path : String
  api_key_header : Option String

/-- What the gate answers: a `JSONResponse(status_code, content)`, the
downstream handler's response passed through, or a propagated exception
(the `KeyError` of `check_rate_limit`, unreachable after a successful
validation). -/
inductive GateResponse (ρ : Type) where
  | jsonResponse (status : Int) (content : List (String × Json))
  | handlerResponse (r : ρ)
  | raised (e : String)
deriving DecidableEq

/-- Result of one `APIKeyMiddleware.dispatch` call, instrumented with the
number of calls the gate made into `validate_key` and `check_rate_limit`
and whether `call_next` was awaited. -/
structure GateOutcome (ρ : Type) where
  manager : APIKeyManager
  response : GateResponse ρ
  validate_calls : Nat
  rate_calls : Nat
  handler_invoked : Bool
deriving DecidableEq

/-- `APIKeyMiddleware.dispatch` (api_key_middleware.py lines 40-90).
`exclude_paths` is the allow-list (default
`["/docs", "/redoc", "/openapi.json", "/health"]`), `call_next` the
downstream handler's response value. -/
def dispatch {ρ : Type} (exclude_paths : List String)
    (m : APIKeyManager) (hf : String → String) (now : Int)
    (req : Request) (call_next : ρ) : GateOutcome ρ :=
  if exclude_paths.any (fun p => pyStartswith req.path p) then
    { manager := m, response := .handlerResponse call_next
      validate_calls := 0, rate_calls := 0, handler_invoked := true }
  else
    let api_key := req.api_key_header
    let v := validate_key m hf now api_key none
    let m1 := v.1
    let is_valid := v.2.1
    let error_message := v.2.2
    if !is_valid then
      { manager := m1
        response := .jsonResponse 401
          [("success", .jbool false), ("message", optMsgJson error_message)]
        validate_calls := 1, rate_calls := 0, handler_invoked := false }
    else
      let r := check_rate_limit m1 hf now (api_key.getD "")
      let m2 := r.1
      match r.2 with
      | .error e =>
          { manager := m2, response := .raised e
            validate_calls := 1, rate_calls := 1, handler_invoked := false }
      | .ok (is_allowed, limit_message) =>
          if !is_allowed then
            { manager := m2
              response := .jsonResponse 429
                [("success", .jbool false),
                 ("message", optMsgJson limit_message)]
              validate_calls := 1, rate_calls := 1
              handler_invoked := false }
          else
            { manager := m2, response := .handlerResponse call_next
              validate_calls := 1, rate_calls := 1, handler_invoked := true }

/-- One state-changing administrative operation on the manager, for
reachability statements: the default-key bootstrap, `generate_key` and
`update_key`. Each carries the operation's arguments; the call time is
supplied alongside when running a trace. -/
inductive MgrOp where
  | bootstrap (default_key : String)
  | generate (api_key : String) (scopes : Option (List String))
      (rate_limit : Option Int) (expires_in_days : Int)
      (metadata : Option Metadata)
  | update (api_key : String) (scopes : Option (List String))
      (rate_limit : Option Int) (expires_in_days : Option Int)
      (metadata : Option Metadata)

/-- Apply one operation at time `t`. -/
def applyOp (hf : String → String) (m : APIKeyManager) (t : Int) :
    MgrOp → APIKeyManager
  | .bootstrap k => load_default_api_key m hf t k
  | .generate key sc rl d md => (generate_key m hf t key sc rl d md).1
  | .update key sc rl d md => (update_key m hf t key sc rl d md).1

/-- Run a timed trace of operations from a starting state. -/
def runOps (hf : String → String) (m : APIKeyManager) :
    List (Int × MgrOp) → APIKeyManager
  | [] => m
  | (t, op) :: rest => runOps hf (applyOp hf m t op) rest

/-- The trace's times never decrease, and the first is at least `t0`. -/
def timesMono (t0 : Int) : List (Int × MgrOp) → Prop
  | [] => True
  | (t, _) :: rest => t0 ≤ t ∧ timesMono t rest

/-- The operation's `expires_in_days` argument, when it has one, is
strictly positive (`generate`'s Python default is 90). -/
def daysPos : MgrOp → Prop
  | .bootstrap _ => True
  | .generate _ _ _ d _ => 1 ≤ d
  | .update _ _ _ d _ => ∀ x, d = some x → 1 ≤ x

instance : DecidablePred daysPos := by
  intro op
  unfold daysPos
  cases op <;> infer_instance

instance decTimesMono (t0 : Int) (l : List (Int × MgrOp)) :
    Decidable (timesMono t0 l) := by
  induction l generalizing t0 with
  | nil => exact .isTrue trivial
  | cons hd tl ih =>
      unfold timesMono
      have := ih hd.1
      exact instDecidableAnd

/-- A concrete stand-in digest for closed-term scenarios: the identity
function (the claims need no property of the hash). -/
def idHash : String → String := fun s => s

/-- The keys of a Python-dict model are pairwise distinct; every state a
real `APIKeyManager` reaches has this shape, because a `dict` cannot
hold a key twice. -/
def keysNodup {α : Type} (l : List (String × α)) : Prop :=
  (l.map Prod.fst).Nodup

instance {α : Type} (l : List (String × α)) : Decidable (keysNodup l) := by
  unfold keysNodup
  infer_instance

/-! Helper lemmas about the association-list dictionary model. -/

theorem findVal_upsert {α : Type} (l : List (String × α)) (k k' : String)
    (v : α) :
    findVal (upsert l k v) k' = if k = k' then some v else findVal l k' := by
  induction l with
  | nil =>
      simp [upsert, findVal]
  | cons hd tl ih =>
      obtain ⟨k'', v''⟩ := hd
      by_cases h1 : k'' = k
      · subst h1
        simp only [upsert, if_pos rfl, findVal]
        by_cases h2 : k'' = k' <;> simp [h2]
      · simp only [upsert, if_neg h1, findVal, ih]
        by_cases h2 : k'' = k'
        · subst h2
          have h3 : k ≠ k'' := Ne.symm h1
          simp [h3]
        · simp [h2]

theorem findVal_eq_none_of_notMem {α : Type} (l : List (String × α))
    (k : String) (h : k ∉ l.map Prod.fst) : findVal l k = none := by
  induction l with
  | nil => rfl
  | cons hd tl ih =>
      obtain ⟨k', v'⟩ := hd
      simp only [List.map_cons, List.mem_cons, not_or] at h
      simp only [findVal, if_neg (fun he : k' = k => h.1 he.symm)]
      exact ih h.2

theorem findVal_eraseKey_self {α : Type} (l : List (String × α))
    (k : String) (h : keysNodup l) :
    findVal (eraseKey l k) k = none := by
  induction l with
  | nil => rfl
  | cons hd tl ih =>
      obtain ⟨k', v'⟩ := hd
      simp only [keysNodup, List.map_cons, List.nodup_cons] at h
      by_cases h1 : k' = k
      · subst h1
        simp only [eraseKey, if_pos rfl]
        exact findVal_eq_none_of_notMem tl k' h.1
      · simp only [eraseKey, if_neg h1, findVal, if_neg h1]
        exact ih h.2

theorem findVal_isPresent {α : Type} (l : List (String × α)) (k : String)
    (v : α) (h : findVal l k = some v) : (findVal l k).isSome = true := by
  simp [h]

/-- The manager component returned by `validate_key` is the input
manager: the method never writes `self`. -/
theorem validate_key_fst (m : APIKeyManager) (hf : String → String)
    (now : Int) (api_key scope : Option String) :
    (validate_key m hf now api_key scope).1 = m := by
  unfold validate_key
  split
  · rfl
  · dsimp only
    split
    · rfl
    · split
      · rfl
      · split <;> rfl

/-! Claim theorems. -/

/-- Claim C1: for a stored credential record with rate limit `N` and a
tracker inside the current window, `check_rate_limit` with
`requests < N` returns `(True, None)` and increments the tracker's count
by exactly 1, while with `requests >= N` it returns
`(False, "API rate limit exceeded")` and leaves the count (and the
window start) unchanged. -/
theorem claimC1_rate_limit_in_window (m : APIKeyManager)
    (hf : String → String) (now : Int) (key : String)
    (rec : KeyInfo) (tr : Tracker)
    (hrec : findVal m.api_keys (hf key) = some rec)
    (htr : findVal m.request_tracker (hf key) = some tr)
    (hwin : now - tr.window_start ≤ m.rate_limit_window) :
    (tr.requests < rec.rate_limit →
       (check_rate_limit m hf now key).2 = .ok (true, none) ∧
       findVal (check_rate_limit m hf now key).1.request_tracker (hf key)
         = some { requests := tr.requests + 1
                  window_start := tr.window_start }) ∧
    (rec.rate_limit ≤ tr.requests →
       (check_rate_limit m hf now key).2
         = .ok (false, some "API rate limit exceeded") ∧
       findVal (check_rate_limit m hf now key).1.request_tracker (hf key)
         = some tr) := by
  simp only [check_rate_limit, htr, hrec, Option.getD]
  rw [if_neg (not_lt.mpr hwin)]
  constructor
  · intro h
    rw [if_neg (not_le.mpr h)]
    refine ⟨rfl, ?_⟩
    dsimp only
    rw [findVal_upsert, if_pos rfl]
  · intro h
    rw [if_pos h]
    refine ⟨rfl, ?_⟩
    dsimp only
    rw [findVal_upsert, if_pos rfl]

/-- Claim C2: with an existing tracker, when `now - window_start` exceeds
the configured window length the call hard-resets the tracker before the
limit check, so (for a record with a positive rate limit, which the data
model guarantees) the call succeeds and leaves `requests = 1` and
`window_start = now`; when the window has not expired, `window_start` is
unchanged. -/
theorem claimC2_window_reset (m : APIKeyManager)
    (hf : String → String) (now : Int) (key : String)
    (rec : KeyInfo) (tr : Tracker)
    (hrec : findVal m.api_keys (hf key) = some rec)
    (htr : findVal m.request_tracker (hf key) = some tr) :
    (m.rate_limit_window < now - tr.window_start →
       0 < rec.rate_limit →
       (check_rate_limit m hf now key).2 = .ok (true, none) ∧
       findVal (check_rate_limit m hf now key).1.request_tracker (hf key)
         = some { requests := 1, window_start := now }) ∧
    (now - tr.window_start ≤ m.rate_limit_window →
       (findVal (check_rate_limit m hf now key).1.request_tracker
          (hf key)).map Tracker.window_start = some tr.window_start) := by
  simp only [check_rate_limit, htr, hrec, Option.getD]
  constructor
  · intro hexp hpos
    rw [if_pos hexp]
    dsimp only
    rw [if_neg (not_le.mpr hpos)]
    refine ⟨rfl, ?_⟩
    dsimp only
    rw [findVal_upsert, if_pos rfl]
    norm_num
  · intro hwin
    rw [if_neg (not_lt.mpr hwin)]
    by_cases h : tr.requests ≥ rec.rate_limit
    · rw [if_pos h]
      dsimp only
      rw [findVal_upsert, if_pos rfl]
      rfl
    · rw [if_neg h]
      dsimp only
      rw [findVal_upsert, if_pos rfl]
      rfl

/-- Claim C10: calling `check_rate_limit` for a credential whose hash has
no record (and no tracker yet) first inserts a fresh tracker
(`requests = 0`, `window_start = now`) and then hits the unguarded
record lookup, raising `KeyError`; the failed call leaves behind a
tracker entry for a hash that has no credential record. -/
theorem claimC10_tracker_leak_on_missing_record (m : APIKeyManager)
    (hf : String → String) (now : Int) (key : String)
    (hrec : findVal m.api_keys (hf key) = none)
    (htr : findVal m.request_tracker (hf key) = none) :
    (check_rate_limit m hf now key).2 = .error "KeyError" ∧
    findVal (check_rate_limit m hf now key).1.request_tracker (hf key)
      = some { requests := 0, window_start := now } ∧
    (check_rate_limit m hf now key).1.api_keys = m.api_keys := by
  simp only [check_rate_limit, htr, hrec, Option.getD]
  exact ⟨trivial, by rw [findVal_upsert, if_pos rfl], trivial⟩

/-- When a record exists for the hash, `check_rate_limit` returns one of
its two regular results, never the `KeyError` branch. -/
theorem check_rate_limit_result_cases (m : APIKeyManager)
    (hf : String → String) (now : Int) (raw : String) (rec : KeyInfo)
    (hrec : findVal m.api_keys (hf raw) = some rec) :
    (check_rate_limit m hf now raw).2
      = .ok (false, some "API rate limit exceeded") ∨
    (check_rate_limit m hf now raw).2 = .ok (true, none) := by
  cases htr : findVal m.request_tracker (hf raw) with
  | none =>
      simp only [check_rate_limit, htr, hrec, Option.getD]
      split_ifs <;> first | exact Or.inl rfl | exact Or.inr rfl
  | some tr =>
      simp only [check_rate_limit, htr, hrec, Option.getD]
      split_ifs <;> first | exact Or.inl rfl | exact Or.inr rfl

/-- Claim C3: `validate_key` fails with the missing-credential reason on
an empty or absent key, with the unknown-credential reason when no
record exists for its hash, with the expiry reason when
`now > expires_at`, with the scope-denied reason when a (non-empty)
scope is given that the record's scopes lack together with the wildcard,
and succeeds otherwise; in every case it leaves the manager state (in
particular the rate-limit tracker) unchanged. -/
theorem claimC3_validate_cases (m : APIKeyManager) (hf : String → String)
    (now : Int) (api_key scope : Option String) :
    (validate_key m hf now api_key scope).1 = m ∧
    (strTruthy api_key = false →
       (validate_key m hf now api_key scope).2
         = (false, some "API key is required")) ∧
    (strTruthy api_key = true →
       findVal m.api_keys (hf (api_key.getD "")) = none →
       (validate_key m hf now api_key scope).2
         = (false, some "Invalid API key")) ∧
    (∀ rec, strTruthy api_key = true →
       findVal m.api_keys (hf (api_key.getD "")) = some rec →
       rec.expires_at < now →
       (validate_key m hf now api_key scope).2
         = (false, some "API key has expired")) ∧
    (∀ rec, strTruthy api_key = true →
       findVal m.api_keys (hf (api_key.getD "")) = some rec →
       ¬ rec.expires_at < now →
       strTruthy scope = true →
       ¬ (scope.getD "") ∈ rec.scopes →
       ¬ "*" ∈ rec.scopes →
       (validate_key m hf now api_key scope).2
         = (false, some ("API key does not have permission for "
                         ++ scope.getD ""))) ∧
    (∀ rec, strTruthy api_key = true →
       findVal m.api_keys (hf (api_key.getD "")) = some rec →
       ¬ rec.expires_at < now →
       (strTruthy scope = false ∨ (scope.getD "") ∈ rec.scopes
          ∨ "*" ∈ rec.scopes) →
       (validate_key m hf now api_key scope).2 = (true, none)) := by
  refine ⟨validate_key_fst m hf now api_key scope, ?_, ?_, ?_, ?_, ?_⟩
  · intro h
    simp only [validate_key, h]
    rfl
  · intro h hrec
    simp only [validate_key, h, hrec]
    rfl
  · intro rec h hrec hexp
    simp only [validate_key, h, hrec]
    rw [if_neg (by simp), if_pos hexp]
  · intro rec h hrec hexp hs h1 h2
    simp only [validate_key, h, hrec]
    rw [if_neg (by simp), if_neg hexp, if_pos ⟨hs, h1, h2⟩]
  · intro rec h hrec hexp hd
    simp only [validate_key, h, hrec]
    rw [if_neg (by simp), if_neg hexp, if_neg ?_]
    rintro ⟨hs, h1, h2⟩
    rcases hd with hd | hd | hd
    · rw [hd] at hs
      exact Bool.false_ne_true hs
    · exact h1 hd
    · exact h2 hd

/-- Claim C8: neither `validate_key` nor `check_rate_limit` escapes via
an exception for any of the five expected error conditions: `validate_key`
always returns a flag plus a reason that is present exactly on failure,
and `check_rate_limit`, under the documented precondition that a record
exists for the credential's hash, returns `Except.ok` with a flag and a
reason present exactly on failure. -/
theorem claimC8_no_exceptions (m : APIKeyManager) (hf : String → String)
    (now : Int) (api_key scope : Option String) (raw : String) :
    ((validate_key m hf now api_key scope).2.1 = false ↔
       ((validate_key m hf now api_key scope).2.2).isSome = true) ∧
    ((findVal m.api_keys (hf raw)).isSome = true →
       ∃ p, (check_rate_limit m hf now raw).2 = Except.ok p ∧
         (p.1 = false ↔ p.2.isSome = true)) := by
  constructor
  · unfold validate_key
    split
    · simp
    · dsimp only
      split
      · simp
      · split
        · simp
        · split <;> simp
  · intro hsome
    rw [Option.isSome_iff_exists] at hsome
    obtain ⟨rec, hrec⟩ := hsome
    rcases check_rate_limit_result_cases m hf now raw rec hrec with h | h
    · exact ⟨(false, some "API rate limit exceeded"), h, by simp⟩
    · exact ⟨(true, none), h, by simp⟩

/-- Claim C4: on a non-allow-listed request the gate answers a failed
validation with HTTP 401 and the exact two-field body
`{success: false, message: <reason>}` without invoking the handler;
a passed validation followed by a failed rate check gets HTTP 429 with
the same body shape, again without the handler; and when both checks
pass the handler's response is returned unchanged. -/
theorem claimC4_gate_responses {ρ : Type} (exclude_paths : List String)
    (m : APIKeyManager) (hf : String → String) (now : Int)
    (req : Request) (cn : ρ)
    (hnb : exclude_paths.any (fun p => pyStartswith req.path p) = false) :
    (∀ msg, (validate_key m hf now req.api_key_header none).2
         = (false, some msg) →
       (dispatch exclude_paths m hf now req cn).response
         = .jsonResponse 401
             [("success", .jbool false), ("message", .jstr msg)] ∧
       (dispatch exclude_paths m hf now req cn).handler_invoked = false) ∧
    (∀ msg, (validate_key m hf now req.api_key_header none).2.1 = true →
       (check_rate_limit m hf now (req.api_key_header.getD "")).2
         = .ok (false, some msg) →
       (dispatch exclude_paths m hf now req cn).response
         = .jsonResponse 429
             [("success", .jbool false), ("message", .jstr msg)] ∧
       (dispatch exclude_paths m hf now req cn).handler_invoked = false) ∧
    ((validate_key m hf now req.api_key_header none).2.1 = true →
       (check_rate_limit m hf now (req.api_key_header.getD "")).2
         = .ok (true, none) →
       (dispatch exclude_paths m hf now req cn).response
         = .handlerResponse cn ∧
       (dispatch exclude_paths m hf now req cn).handler_invoked = true) := by
  have hm1 : (validate_key m hf now req.api_key_header none).1 = m :=
    validate_key_fst m hf now req.api_key_header none
  refine ⟨?_, ?_, ?_⟩
  · intro msg hv
    have h1 : (validate_key m hf now req.api_key_header none).2.1 = false := by
      rw [hv]
    have h2 : (validate_key m hf now req.api_key_header none).2.2 = some msg := by
      rw [hv]
    constructor <;> simp [dispatch, hnb, h1, h2, optMsgJson]
  · intro msg hvalid hcrl
    constructor <;> simp [dispatch, hnb, hvalid, hm1, hcrl, optMsgJson]
  · intro hvalid hcrl
    constructor <;> simp [dispatch, hnb, hvalid, hm1, hcrl]

/-- Claim C5: a request whose path starts with an allow-listed entry is
forwarded to the handler with zero calls into `validate_key` or
`check_rate_limit` and the manager untouched, even with no credential
header; a request matching no entry always goes through the credential
check (`validate_key` is called exactly once). -/
theorem claimC5_allowlist_bypass {ρ : Type} (exclude_paths : List String)
    (m : APIKeyManager) (hf : String → String) (now : Int)
    (req : Request) (cn : ρ) :
    ((∃ p ∈ exclude_paths, pyStartswith req.path p = true) →
       dispatch exclude_paths m hf now req cn
         = { manager := m, response := .handlerResponse cn,
             validate_calls := 0, rate_calls := 0,
             handler_invoked := true }) ∧
    ((∀ p ∈ exclude_paths, pyStartswith req.path p = false) →
       (dispatch exclude_paths m hf now req cn).validate_calls = 1) := by
  constructor
  · intro hmatch
    have hany : exclude_paths.any (fun p => pyStartswith req.path p) = true := by
      rw [List.any_eq_true]
      obtain ⟨p, hp, hps⟩ := hmatch
      exact ⟨p, hp, hps⟩
    simp only [dispatch, hany, if_true]
  · intro hall
    have hany : exclude_paths.any (fun p => pyStartswith req.path p) = false := by
      rw [List.any_eq_false]
      intro p hp
      simp [hall p hp]
    simp only [dispatch, hany, Bool.false_eq_true, if_false]
    cases hv : (validate_key m hf now req.api_key_header none).2.1 with
    | false => simp only [Bool.not_false, if_true]
    | true =>
        simp only [Bool.not_true, Bool.false_eq_true, if_false]
        cases hr : (check_rate_limit (validate_key m hf now
            req.api_key_header none).1 hf now (req.api_key_header.getD "")).2 with
        | error e => rfl
        | ok p =>
            obtain ⟨b, msg⟩ := p
            cases b <;> rfl

/-- Claim C6 (amended): `revoke_key` returns true iff a record existed
for the credential's hash, afterwards no record exists for that hash
and, when a record had existed, no tracker either; for a non-empty raw
credential a `validate_key` right after the revoke fails with the
unknown-credential reason; a second revoke returns false and leaves the
store unchanged. (The claim's unconditional version fails for the empty
credential, whose post-revoke validation fails with the
missing-credential reason instead, and for a leaked tracker without a
record, which revoke does not remove.) -/
theorem claimC6_revoke_amended (m : APIKeyManager)
    (hf : String → String) (now : Int) (key : String)
    (scope : Option String)
    (hk : keysNodup m.api_keys) (ht : keysNodup m.request_tracker) :
    ((revoke_key m hf key).2 = true ↔
       (findVal m.api_keys (hf key)).isSome = true) ∧
    findVal (revoke_key m hf key).1.api_keys (hf key) = none ∧
    ((findVal m.api_keys (hf key)).isSome = true →
       findVal (revoke_key m hf key).1.request_tracker (hf key) = none) ∧
    (strTruthy (some key) = true →
       (validate_key (revoke_key m hf key).1 hf now (some key) scope).2
         = (false, some "Invalid API key")) ∧
    revoke_key (revoke_key m hf key).1 hf key
      = ((revoke_key m hf key).1, false) := by
  cases hrec : findVal m.api_keys (hf key) with
  | none =>
      refine ⟨?_, ?_, ?_, ?_, ?_⟩
      · simp [revoke_key, hrec]
      · simp [revoke_key, hrec]
      · simp [hrec]
      · intro hne
        simp [revoke_key, hrec, validate_key, hne, Option.getD_some]
      · simp [revoke_key, hrec]
  | some rec =>
      have hrec' : findVal (eraseKey m.api_keys (hf key)) (hf key) = none :=
        findVal_eraseKey_self m.api_keys (hf key) hk
      refine ⟨?_, ?_, ?_, ?_, ?_⟩
      · simp [revoke_key, hrec]
      · simp [revoke_key, hrec, hrec']
      · intro _
        simp only [revoke_key, hrec]
        exact findVal_eraseKey_self m.request_tracker (hf key) ht
      · intro hne
        simp [revoke_key, hrec, validate_key, hne, Option.getD_some, hrec']
      · simp [revoke_key, hrec, hrec']

/-- Claim C7: `update_key` returns false and changes nothing when no
record exists for the hash; otherwise it returns true and rewrites only
the explicitly provided fields (`None` arguments leave a field alone),
with `metadata` shallow-merged into the existing mapping and
`expires_in_days` recomputing the expiry as `now + days`; in particular
two successive metadata updates with disjoint keys leave both keys
present. -/
theorem claimC7_update_fields (m : APIKeyManager) (hf : String → String)
    (now : Int) (key : String) (sc : Option (List String))
    (rl : Option Int) (days : Option Int) (md : Option Metadata) :
    (findVal m.api_keys (hf key) = none →
       update_key m hf now key sc rl days md = (m, false)) ∧
    (∀ rec, findVal m.api_keys (hf key) = some rec →
       (update_key m hf now key sc rl days md).2 = true ∧
       findVal (update_key m hf now key sc rl days md).1.api_keys (hf key)
         = some { scopes := sc.getD rec.scopes
                  rate_limit := rl.getD rec.rate_limit
                  created_at := rec.created_at
                  expires_at := match days with
                    | some d => now + d * 24 * 3600
                    | none => rec.expires_at
                  metadata := match md with
                    | some x => dictUpdate rec.metadata x
                    | none => rec.metadata }) ∧
    (findVal (update_key (update_key (APIKeyManager.init idHash 0 "dev")
          idHash 1 "dev" none none none (some [("a", .i 1)])).1
          idHash 2 "dev" none none none (some [("b", .i 2)])).1.api_keys
        "dev").map
      (fun r => (findVal r.metadata "a", findVal r.metadata "b"))
      = some (some (.i 1), some (.i 2)) := by
  refine ⟨?_, ?_, by rfl⟩
  · intro h
    simp only [update_key, h]
  · intro rec hrec
    simp only [update_key, hrec]
    refine ⟨trivial, ?_⟩
    cases sc <;> cases rl <;> cases days <;> cases md <;>
      (rw [findVal_upsert, if_pos rfl]; try rfl)

/-- Records seen so far were created no later than `t` and strictly
before their expiry. -/
def recTimeOK (t : Int) (rec : KeyInfo) : Prop :=
  rec.created_at ≤ t ∧ rec.created_at < rec.expires_at

theorem recTimeOK_mono {t t' : Int} {rec : KeyInfo} (h : recTimeOK t rec)
    (htt : t ≤ t') : recTimeOK t' rec :=
  ⟨le_trans h.1 htt, h.2⟩

theorem timeOK_upsert (l : List (String × KeyInfo)) (t : Int)
    (kh : String) (info : KeyInfo)
    (hl : ∀ k rec, findVal l k = some rec → recTimeOK t rec)
    (hi : recTimeOK t info) :
    ∀ k rec, findVal (upsert l kh info) k = some rec → recTimeOK t rec := by
  intro k rec h
  rw [findVal_upsert] at h
  by_cases hk : kh = k
  · rw [if_pos hk] at h
    cases h
    exact hi
  · rw [if_neg hk] at h
    exact hl k rec h

theorem applyOp_timeOK (hf : String → String) (m : APIKeyManager)
    (t : Int) (op : MgrOp) (hop : daysPos op)
    (hm : ∀ k rec, findVal m.api_keys k = some rec → recTimeOK t rec) :
    ∀ k rec, findVal (applyOp hf m t op).api_keys k = some rec →
      recTimeOK t rec := by
  cases op with
  | bootstrap dk =>
      cases hd : findVal m.api_keys (hf dk) with
      | some v =>
          simp only [applyOp, load_default_api_key, hd]
          exact hm
      | none =>
          simp only [applyOp, load_default_api_key, hd]
          refine timeOK_upsert m.api_keys t (hf dk) _ hm ⟨le_refl t, ?_⟩
          dsimp only
          omega
  | generate key sc rl d md =>
      simp only [applyOp, generate_key]
      refine timeOK_upsert m.api_keys t (hf key) _ hm ?_
      refine ⟨le_refl t, ?_⟩
      have hd0 : (0 : Int) < d := by
        simpa [daysPos] using hop
      have : (0 : Int) < d * 24 * 3600 := by positivity
      simp only []
      omega
  | update key sc rl d md =>
      cases hd : findVal m.api_keys (hf key) with
      | none =>
          simp only [applyOp, update_key, hd]
          exact hm
      | some key_info =>
          simp only [applyOp, update_key, hd]
          have hki := hm (hf key) key_info hd
          refine timeOK_upsert m.api_keys t (hf key) _ hm ?_
          have hdy : ∀ x, d = some x → 1 ≤ x := by
            simpa [daysPos] using hop
          cases sc <;> cases rl <;> cases d <;> cases md <;>
            first
            | exact ⟨hki.1, hki.2⟩
            | · refine ⟨hki.1, ?_⟩
                dsimp only
                rename_i x _
                have hx := hdy x rfl
                have hx0 : (0 : Int) < x := by linarith
                have : (0 : Int) < x * 24 * 3600 := by positivity
                have := hki.1
                omega
            | · refine ⟨hki.1, ?_⟩
                dsimp only
                rename_i x
                have hx := hdy x rfl
                have hx0 : (0 : Int) < x := by linarith
                have : (0 : Int) < x * 24 * 3600 := by positivity
                have := hki.1
                omega

theorem runOps_timeOK (hf : String → String) :
    ∀ (ops : List (Int × MgrOp)) (m : APIKeyManager) (t0 : Int),
      timesMono t0 ops → (∀ p ∈ ops, daysPos p.2) →
      (∀ k rec, findVal m.api_keys k = some rec → recTimeOK t0 rec) →
      ∀ k rec, findVal (runOps hf m ops).api_keys k = some rec →
        rec.created_at < rec.expires_at := by
  intro ops
  induction ops with
  | nil =>
      intro m t0 _ _ hm k rec h
      exact (hm k rec h).2
  | cons hd tl ih =>
      obtain ⟨t, op⟩ := hd
      intro m t0 hmono hdays hm
      refine ih (applyOp hf m t op) t hmono.2
        (fun p hp => hdays p (List.mem_cons_of_mem _ hp)) ?_
      refine applyOp_timeOK hf m t op (hdays (t, op) (List.mem_cons_self _ _))
        (fun k rec h => recTimeOK_mono (hm k rec h) hmono.1)

/-- Claim C9 (amended): starting from a freshly initialized manager,
after any trace of bootstrap, generate and update operations whose times
never decrease and whose `expires_in_days` arguments (when present) are
strictly positive, every stored record satisfies
`expires_at > created_at`. (The unamended claim, over truly arbitrary
argument values, fails: `expires_in_days = 0` makes
`expires_at = created_at`.) -/
theorem claimC9_expiry_invariant_amended (hf : String → String)
    (t0 : Int) (dk : String) (ops : List (Int × MgrOp))
    (hmono : timesMono t0 ops) (hdays : ∀ p ∈ ops, daysPos p.2) :
    ∀ k rec,
      findVal (runOps hf (APIKeyManager.init hf t0 dk) ops).api_keys k
        = some rec →
      rec.created_at < rec.expires_at := by
  refine runOps_timeOK hf ops _ t0 hmono hdays ?_
  intro k rec h
  simp only [APIKeyManager.init, load_default_api_key, findVal, upsert] at h
  by_cases hk : hf dk = k
  · rw [if_pos hk] at h
    cases h
    refine ⟨le_refl t0, ?_⟩
    dsimp only
    omega
  · rw [if_neg hk] at h
    cases h

/-! Concrete scenario states used by the closed witness theorems. -/

/-- A record with rate limit 3, used by the rate-limiting scenarios. -/
def recK3 : KeyInfo :=
  { scopes := ["*"], rate_limit := 3, created_at := 0,
    expires_at := 1000000, metadata := [] }

/-- A manager holding `recK3` under key "k" with a tracker already at the
limit (3 requests since time 0). -/
def mgrK3 : APIKeyManager :=
  { api_keys := [("k", recK3)]
    request_tracker := [("k", { requests := 3, window_start := 0 })]
    rate_limit_window := 3600
    default_rate_limit := 1000 }

/-- A freshly initialized manager whose default key is "dev". -/
def mgrDev : APIKeyManager := APIKeyManager.init idHash 0 "dev"

/-- The bootstrap record seeded for "dev" at time 0. -/
def recDev : KeyInfo :=
  { scopes := ["*"], rate_limit := 1000, created_at := 0,
    expires_at := 0 + 365 * 24 * 3600,
    metadata := [("name", .s "Default Development API Key"),
                 ("created_by", .s "system")] }

/-- A manager with a key "sk-r" scoped to just "read". -/
def mgrScoped : APIKeyManager :=
  (generate_key (APIKeyManager.init idHash 0 "dev") idHash 0 "sk-r"
    (some ["read"]) none 90 none).1

/-- The record generated for "sk-r". -/
def recScoped : KeyInfo :=
  { scopes := ["read"], rate_limit := 1000, created_at := 0,
    expires_at := 0 + 90 * 24 * 3600, metadata := [] }

/-- The default allow-list of the middleware. -/
def defaultExcluded : List String :=
  ["/docs", "/redoc", "/openapi.json", "/health"]

/-- One-operation trace: generate "sk-1" with the default 90-day expiry
at time 5. -/
def opsW : List (Int × MgrOp) :=
  [(5, .generate "sk-1" none none 90 none)]

/-- The record that trace leaves under "sk-1". -/
def recW : KeyInfo :=
  { scopes := ["*"], rate_limit := 1000, created_at := 5,
    expires_at := 5 + 90 * 24 * 3600, metadata := [] }

/-- Witness for C1: with the tracker at 3 of 3, the next call inside the
window is rejected and the count stays 3. -/
theorem claimC1_witness :
    (check_rate_limit mgrK3 idHash 10 "k").2
      = .ok (false, some "API rate limit exceeded") ∧
    findVal (check_rate_limit mgrK3 idHash 10 "k").1.request_tracker "k"
      = some { requests := 3, window_start := 0 } :=
  (claimC1_rate_limit_in_window mgrK3 idHash 10 "k" recK3
    { requests := 3, window_start := 0 } rfl rfl (by decide)).2 (by decide)

/-- Witness for C2: at time 4000 the window that started at 0 has
expired, so the saturated tracker is reset and the call succeeds with
`requests = 1`. -/
theorem claimC2_witness :
    (check_rate_limit mgrK3 idHash 4000 "k").2 = .ok (true, none) ∧
    findVal (check_rate_limit mgrK3 idHash 4000 "k").1.request_tracker "k"
      = some { requests := 1, window_start := 4000 } :=
  (claimC2_window_reset mgrK3 idHash 4000 "k" recK3
    { requests := 3, window_start := 0 } rfl rfl).1 (by decide) (by decide)

/-- Witness for C3: a key scoped to "read" is denied the scope "write". -/
theorem claimC3_witness :
    (validate_key mgrScoped idHash 5 (some "sk-r") (some "write")).2
      = (false, some ("API key does not have permission for "
                      ++ (some "write").getD "")) :=
  (claimC3_validate_cases mgrScoped idHash 5 (some "sk-r")
      (some "write")).2.2.2.2.1 recScoped (by decide) rfl (by decide)
    (by decide) (by decide) (by decide)

/-- Witness for C4: a request without a credential header on a
non-allow-listed path is answered 401 with the two-field body and the
handler is not invoked. -/
theorem claimC4_witness :
    (dispatch defaultExcluded mgrDev idHash 5
        { path := "/api/events", api_key_header := none } (0 : Int)).response
      = .jsonResponse 401 [("success", .jbool false),
          ("message", .jstr "API key is required")] ∧
    (dispatch defaultExcluded mgrDev idHash 5
        { path := "/api/events", api_key_header := none }
        (0 : Int)).handler_invoked = false :=
  (claimC4_gate_responses defaultExcluded mgrDev idHash 5
      { path := "/api/events", api_key_header := none } (0 : Int)
      (by decide)).1 "API key is required" rfl

/-- Witness for C5: a "/health/..." request bypasses every check even
with no credential header. -/
theorem claimC5_witness :
    dispatch defaultExcluded mgrDev idHash 5
        { path := "/health/live", api_key_header := none } (0 : Int)
      = { manager := mgrDev, response := .handlerResponse 0,
          validate_calls := 0, rate_calls := 0, handler_invoked := true } :=
  (claimC5_allowlist_bypass defaultExcluded mgrDev idHash 5
      { path := "/health/live", api_key_header := none } (0 : Int)).1
    (by decide)

/-- Counterexample for C6 as stated: the empty raw credential can hold a
record (bootstrap with `MCP_API_KEY=""`); revoking it returns true, yet
the validation right after the revoke fails with the missing-credential
message, not the unknown-credential one. -/
theorem claimC6_counterexample :
    (revoke_key (APIKeyManager.init idHash 0 "") idHash "").2 = true ∧
    (validate_key (revoke_key (APIKeyManager.init idHash 0 "") idHash "").1
        idHash 0 (some "") none).2 = (false, some "API key is required") ∧
    ("API key is required" : String) ≠ "Invalid API key" :=
  ⟨rfl, rfl, by decide⟩

/-- Witness for the amended C6 on the "dev" bootstrap key. -/
theorem claimC6_witness :
    ((revoke_key mgrDev idHash "dev").2 = true ↔
       (findVal mgrDev.api_keys (idHash "dev")).isSome = true) ∧
    findVal (revoke_key mgrDev idHash "dev").1.api_keys (idHash "dev")
      = none ∧
    findVal (revoke_key mgrDev idHash "dev").1.request_tracker
      (idHash "dev") = none ∧
    (validate_key (revoke_key mgrDev idHash "dev").1 idHash 7
        (some "dev") none).2 = (false, some "Invalid API key") ∧
    revoke_key (revoke_key mgrDev idHash "dev").1 idHash "dev"
      = ((revoke_key mgrDev idHash "dev").1, false) :=
  let h := claimC6_revoke_amended mgrDev idHash 7 "dev" none
    (by decide) (by decide)
  ⟨h.1, h.2.1, h.2.2.1 (by decide), h.2.2.2.1 (by decide), h.2.2.2.2⟩

/-- Witness for C7: updating only the rate limit of the "dev" record
keeps every other field. -/
theorem claimC7_witness :
    (update_key mgrDev idHash 50 "dev" none (some 5) none none).2 = true ∧
    findVal (update_key mgrDev idHash 50 "dev" none (some 5) none
        none).1.api_keys (idHash "dev")
      = some { scopes := recDev.scopes, rate_limit := 5,
               created_at := recDev.created_at,
               expires_at := recDev.expires_at,
               metadata := recDev.metadata } :=
  (claimC7_update_fields mgrDev idHash 50 "dev" none (some 5) none
    none).2.1 recDev rfl

/-- Witness for C8 at the freshly initialized manager. -/
theorem claimC8_witness :
    ((validate_key mgrDev idHash 5 none none).2.1 = false ↔
       ((validate_key mgrDev idHash 5 none none).2.2).isSome = true) ∧
    (∃ p, (check_rate_limit mgrDev idHash 5 "dev").2 = Except.ok p ∧
       (p.1 = false ↔ p.2.isSome = true)) :=
  ⟨(claimC8_no_exceptions mgrDev idHash 5 none none "dev").1,
   (claimC8_no_exceptions mgrDev idHash 5 none none "dev").2 (by decide)⟩

/-- Counterexample for C9 as stated: `generate_key` with
`expires_in_days = 0` stores a record whose expiry equals its creation
time, so `expires_at > created_at` fails at a reachable state. -/
theorem claimC9_counterexample :
    (findVal (generate_key (APIKeyManager.init idHash 0 "dev") idHash 100
        "sk-x" none none 0 none).1.api_keys "sk-x").map
      (fun r => (r.created_at, r.expires_at)) = some (100, 100) ∧
    ¬ ((100 : Int) < 100) :=
  ⟨by decide, by decide⟩

/-- Witness for the amended C9 on a one-generate trace. -/
theorem claimC9_witness : recW.created_at < recW.expires_at :=
  claimC9_expiry_invariant_amended idHash 0 "dev" opsW (by decide)
    (by decide) "sk-1" recW (by decide)

/-- Witness for C10: an unknown credential "ghost" leaves a tracker
behind while the call itself dies with `KeyError`. -/
theorem claimC10_witness :
    (check_rate_limit mgrDev idHash 5 "ghost").2 = .error "KeyError" ∧
    findVal (check_rate_limit mgrDev idHash 5 "ghost").1.request_tracker
      "ghost" = some { requests := 0, window_start := 5 } ∧
    (check_rate_limit mgrDev idHash 5 "ghost").1.api_keys = mgrDev.api_keys :=
  claimC10_tracker_leak_on_missing_record mgrDev idHash 5 "ghost" rfl rfl

end SkedSec
